import Mathlib

/-!
Shallow embedding of the rsheet reactive cell store (src/lib.rs, src/util.rs).

The embedding is sequential: the `Mutex<Spreadsheet>` of the source collapses to
explicit state passing, and each critical section of the source becomes one pure
state transformation.  A Rust panic (vector indexing out of bounds, `unwrap` on
`None`) is modelled as the `Except.error` branch of the affected functions.
The two external collaborators that do not live in this repository are treated
as the specification directs: the Identifier Codec and the Expression
Evaluator's tokenizer/evaluator are modelled from the spec's words (see the
doc comments on `column_number_to_name`, `parseCellIdChars` and `ExprLib`).
`HashMap`s are modelled as association lists whose `insert` replaces the first
binding of the key, matching `HashMap::insert` content-wise; `Instant`
timestamps are omitted: they are real time and are never read by the source.
-/

set_option linter.unusedVariables false

/-- Cell values (rsheet_lib::cell_value::CellValue): integer, string,
"no value", or an error value.  The source constructor `CellValue::String`
is rendered `Str` here. -/
inductive CellValue where
  | Int (i : Int)
  | Str (s : String)
  | None
  | Error (msg : String)
deriving DecidableEq

/-- Evaluation-context arguments (rsheet_lib::cell_expr::CellArgument):
scalar, vector, or matrix of cell values. -/
inductive CellArgument where
  | Value (v : CellValue)
  | Vector (vs : List CellValue)
  | Matrix (m : List (List CellValue))
deriving DecidableEq

/-- rsheet_lib::command::CellIdentifier: a (column, row) coordinate,
zero-based ("A1" is column 0, row 0). -/
structure CellIdentifier where
  col : Nat
  row : Nat
deriving DecidableEq

/-- lib.rs TimedCellValue, minus the `Instant` timestamp (real time, never
read by any code path of the source). -/
structure TimedCellValue where
  value : CellValue
  expression : Option String
deriving DecidableEq

/-- lib.rs `CellGrid = HashMap<String, TimedCellValue>`, as an association list. -/
abbrev CellGrid := List (String × TimedCellValue)

/-- lib.rs `DependencyGraph = HashMap<String, Vec<String>>`: referenced token ↦
cells whose most recent expression mentions that token. -/
abbrev DependencyGraph := List (String × List String)

/-- lib.rs Spreadsheet: the cell store and dependency graph, guarded together. -/
structure Spreadsheet where
  cells : CellGrid
  dependencies : DependencyGraph
deriving DecidableEq

/-- rsheet_lib::replies::Reply: a (cell, value) reply or an error message. -/
inductive Reply where
  | Value (cell : String) (v : CellValue)
  | Error (msg : String)
deriving DecidableEq

/-- rsheet_lib::command::Command after string parsing (the string parser is the
external library's FromStr; a malformed command yields an error reply and
touches no state, so the embedding starts from the parsed form). -/
inductive Command where
  | Get (cell_identifier : CellIdentifier)
  | Set (cell_identifier : CellIdentifier) (cell_expr : String)

/-- First-match lookup in an association list (HashMap::get). -/
def mapGet {α : Type} (m : List (String × α)) (k : String) : Option α :=
  match m with
  | [] => Option.none
  | (k₂, v) :: rest => if k₂ = k then some v else mapGet rest k

/-- Insert-or-replace in an association list (HashMap::insert). -/
def mapInsert {α : Type} (m : List (String × α)) (k : String) (v : α) : List (String × α) :=
  match m with
  | [] => [(k, v)]
  | (k₂, v₂) :: rest => if k₂ = k then (k₂, v) :: rest else (k₂, v₂) :: mapInsert rest k v

/-- The bucket of a token in the dependency graph (empty when absent). -/
def bucketOf (dependencies : DependencyGraph) (token : String) : List String :=
  (mapGet dependencies token).getD []

/-- The uppercase alphabet used by the column codec. -/
def upperAlphabet : List Char :=
  ['A', 'B', 'C', 'D', 'E', 'F', 'G', 'H', 'I', 'J', 'K', 'L', 'M',
   'N', 'O', 'P', 'Q', 'R', 'S', 'T', 'U', 'V', 'W', 'X', 'Y', 'Z']

def colChar (d : Nat) : Char := upperAlphabet.getD d 'A'

/-- Fuel-indexed bijective base-26 digits of a column number (the fuel in
`colNameAux (n+1) n` always suffices, see `colNameAux_fuel_irrelevant`). -/
def colNameAux : Nat → Nat → List Char
  | 0, _ => []
  | fuel + 1, n =>
    if n < 26 then [colChar n]
    else colNameAux fuel (n / 26 - 1) ++ [colChar (n % 26)]

/-- Modelled from the spec: the external Identifier Codec's column naming
(rsheet_lib::cells::column_number_to_name, not in src/): bijective base-26
letters, column 0 ↦ "A", column 26 ↦ "AA". -/
def column_number_to_name (col : Nat) : String := ⟨colNameAux (col + 1) col⟩

def digitAlphabet : List Char := ['0', '1', '2', '3', '4', '5', '6', '7', '8', '9']

def digitChar (d : Nat) : Char := digitAlphabet.getD d '0'

/-- Fuel-indexed decimal digits of a natural number. -/
def natToDigitsAux : Nat → Nat → List Char
  | 0, _ => []
  | fuel + 1, n =>
    if n < 10 then [digitChar n]
    else natToDigitsAux fuel (n / 10) ++ [digitChar (n % 10)]

/-- Decimal rendering of a natural number (the `{}` formatting of the row
number in util.rs). -/
def natRepr (n : Nat) : String := ⟨natToDigitsAux (n + 1) n⟩

/-- util.rs cell_id_to_string: the column name followed by `row + 1`. -/
def cell_id_to_string (cell_id : CellIdentifier) : String :=
  column_number_to_name cell_id.col ++ natRepr (cell_id.row + 1)

def isUpperChar (c : Char) : Bool := 65 ≤ c.toNat && c.toNat ≤ 90

def isDigitChar (c : Char) : Bool := 48 ≤ c.toNat && c.toNat ≤ 57

/-- Numeric value of a decimal digit string. -/
def digitsVal (cs : List Char) : Nat := cs.foldl (fun acc c => acc * 10 + (c.toNat - 48)) 0

/-- Numeric value (one-based) of a bijective base-26 letter string. -/
def lettersVal (cs : List Char) : Nat := cs.foldl (fun acc c => acc * 26 + (c.toNat - 64)) 0

/-- Modelled from the spec: the external Identifier Codec's name grammar
(CellIdentifier FromStr in rsheet_lib, not in src/): one or more letters for
the column, followed by a positive integer row; "A1" is column 0, row 0. -/
def parseCellIdChars (cs : List Char) : Option CellIdentifier :=
  let letters := cs.takeWhile isUpperChar
  let rest := cs.dropWhile isUpperChar
  if letters = [] then Option.none
  else if rest = [] then Option.none
  else if rest.all isDigitChar then
    if digitsVal rest = 0 then Option.none
    else some ⟨lettersVal letters - 1, digitsVal rest - 1⟩
  else Option.none

def parseCellIdentifier (s : String) : Option CellIdentifier := parseCellIdChars s.data

/-- `str::split('_')`: split a character list at every underscore. -/
def splitUnderscore : List Char → List (List Char)
  | [] => [[]]
  | c :: rest =>
    if c = '_' then [] :: splitUnderscore rest
    else
      match splitUnderscore rest with
      | [] => [[c]]
      | p :: ps => (c :: p) :: ps

/-- The inclusive range `a..=b` of Rust (empty when `b < a`). -/
def rangeIncl (a b : Nat) : List Nat := List.range' a (b + 1 - a)

/-- The column-major cell enumeration of the nested loops of lib.rs
parse_range (`for col in start.col..=end.col { for row in ... }`). -/
def rangeList (startId endId : CellIdentifier) : List String :=
  ((rangeIncl startId.col endId.col).map (fun col =>
    (rangeIncl startId.row endId.row).map (fun row =>
      cell_id_to_string ⟨col, row⟩))).flatten

/-- lib.rs parse_range: split on underscores, require exactly two parts, parse
both endpoints, then enumerate the rectangle column-major. -/
def parse_range (var_name : String) : Option (List String) :=
  match splitUnderscore var_name.data with
  | [p0, p1] =>
    match parseCellIdChars p0, parseCellIdChars p1 with
    | some startId, some endId => some (rangeList startId endId)
    | _, _ => Option.none
  | _ => Option.none

/-- lib.rs is_same_row: parse both names, compare rows; false on a parse failure. -/
def is_same_row (start₁ end₁ : String) : Bool :=
  match parseCellIdentifier start₁, parseCellIdentifier end₁ with
  | some startId, some endId => startId.row == endId.row
  | _, _ => false

/-- lib.rs is_same_col. -/
def is_same_col (start₁ end₁ : String) : Bool :=
  match parseCellIdentifier start₁, parseCellIdentifier end₁ with
  | some startId, some endId => startId.col == endId.col
  | _, _ => false

/-- The recurring `cells.get(name).map(|t| t.value).unwrap_or(CellValue::None)`
idiom of lib.rs: a missing cell contributes "no value". -/
def valueAt (cells : CellGrid) (name : String) : CellValue :=
  match mapGet cells name with
  | some timed => timed.value
  | Option.none => CellValue.None

/-- lib.rs build_matrix: re-parse the first and last enumerated cell (a failed
`unwrap` is a panic, modelled as `Except.error`) and produce the row-major
grid of current values over the inclusive rectangle. -/
def build_matrix (range : List String) (cells : CellGrid) : Except String (List (List CellValue)) :=
  match range.head?.bind parseCellIdentifier, range.getLast?.bind parseCellIdentifier with
  | some start_id, some end_id =>
    .ok ((rangeIncl start_id.row end_id.row).map (fun row =>
      (rangeIncl start_id.col end_id.col).map (fun col =>
        valueAt cells (cell_id_to_string ⟨col, row⟩))))
  | _, _ => .error "panic: called unwrap on a None value"

/-- lib.rs resolve_variable.  A stored cell resolves to a scalar ("no value"
becomes integer zero, an error value is excluded and resolves to
`Option.none`); otherwise a range token resolves to a vector (same row or
same column) or a matrix; otherwise the token is unresolved.  Indexing
`range[0]` / `range[range.len() - 1]` on an empty expanded range is a panic,
modelled as `Except.error`. -/
def resolve_variable (var_name : String) (cells : CellGrid) : Except String (Option CellArgument) :=
  match mapGet cells var_name with
  | some cell_value =>
    match cell_value.value with
    | CellValue.Int i => .ok (some (CellArgument.Value (CellValue.Int i)))
    | CellValue.Str s => .ok (some (CellArgument.Value (CellValue.Str s)))
    | CellValue.None => .ok (some (CellArgument.Value (CellValue.Int 0)))
    | CellValue.Error _ => .ok Option.none
  | Option.none =>
    match parse_range var_name with
    | some range =>
      match range.head?, range.getLast? with
      | some first, some last =>
        if is_same_row first last || is_same_col first last then
          .ok (some (CellArgument.Vector (range.map (fun cell => valueAt cells cell))))
        else
          match build_matrix range cells with
          | .ok matrix => .ok (some (CellArgument.Matrix matrix))
          | .error e => .error e
      | _, _ => .error "panic: index out of bounds on empty range"
    | Option.none => .ok Option.none

/-- Modelled from the spec: the external Expression Evaluator (rsheet_lib's
CellExpr, not in src/): a tokenizer extracting the variable tokens of an
expression string, and an evaluator mapping an expression and a context of
named arguments to a value or a failure. -/
structure ExprLib where
  find_variable_names : String → List String
  evaluate : String → List (String × CellArgument) → Except String CellValue

/-- The context-building loop inside lib.rs handle_context: resolve each
variable in order, inserting the resolved ones and omitting the rest. -/
def buildContext (vars : List String) (cells : CellGrid)
    (context : List (String × CellArgument)) :
    Except String (List (String × CellArgument)) :=
  match vars with
  | [] => .ok context
  | var :: rest =>
    match resolve_variable var cells with
    | .error e => .error e
    | .ok (some cell_arg) => buildContext rest cells (mapInsert context var cell_arg)
    | .ok Option.none => buildContext rest cells context

/-- lib.rs handle_context: build the evaluation context for one expression. -/
def handle_context (E : ExprLib) (cell_expr : String) (cells : CellGrid) :
    Except String (List (String × CellArgument)) :=
  buildContext (E.find_variable_names cell_expr) cells []

/-- The `entry(var).or_insert_with(Vec::new).push(cell_id)` step of lib.rs
update_dependencies. -/
def pushToBucket (dependencies : DependencyGraph) (var cell_id : String) : DependencyGraph :=
  match dependencies with
  | [] => [(var, [cell_id])]
  | (k, b) :: rest =>
    if k = var then (k, b ++ [cell_id]) :: rest
    else (k, b) :: pushToBucket rest var cell_id

/-- lib.rs update_dependencies: remove `cell_id` from every bucket, then append
it to the bucket of each variable of the new expression.  `vars` is
`cell_expr.find_variable_names()` (the external tokenizer). -/
def update_dependencies (dependencies : DependencyGraph) (cell_id : String)
    (vars : List String) : DependencyGraph :=
  let removed := dependencies.map (fun p => (p.1, p.2.filter (fun dep => dep ≠ cell_id)))
  vars.foldl (fun deps var => pushToBucket deps var cell_id) removed

/-- Outcome of the propagation loop: fuel exhaustion (never reached, see
`triggerLoop_fuel_sufficient`), a panic, or completion carrying the final
cell store, the chronological list of re-evaluated dependents, and the final
visited set. -/
inductive PropResult where
  | outOfFuel
  | panicked (msg : String)
  | done (cells : CellGrid) (evals : List String) (visited : List String)
deriving DecidableEq

/-- The `for dependent in dependents` loop inside lib.rs trigger_updates: a
dependent missing from the store or without a stored expression is skipped; a
re-evaluated dependent has its result written back (an error value on
evaluation failure) and is pushed onto the work stack only on success.
`evals` is a ghost trace recording each re-evaluation event. -/
def process_dependents (E : ExprLib) (dependents : List String) (cells : CellGrid)
    (queue : List String) (evals : List String) :
    Except String (CellGrid × List String × List String) :=
  match dependents with
  | [] => .ok (cells, queue, evals)
  | dependent :: rest =>
    match mapGet cells dependent with
    | Option.none => process_dependents E rest cells queue evals
    | some original_expr =>
      match original_expr.expression with
      | Option.none => process_dependents E rest cells queue evals
      | some original_expr_str =>
        match handle_context E original_expr_str cells with
        | .error e => .error e
        | .ok context =>
          match E.evaluate original_expr_str context with
          | .ok new_value =>
            process_dependents E rest
              (mapInsert cells dependent ⟨new_value, some original_expr_str⟩)
              (dependent :: queue) (evals ++ [dependent])
          | .error _ =>
            process_dependents E rest
              (mapInsert cells dependent ⟨CellValue.Error "evaluation failed", some original_expr_str⟩)
              queue (evals ++ [dependent])

/-- The `while let Some(cell) = queue.pop()` loop of lib.rs trigger_updates.
The Vec work stack is kept top-first (push is cons, pop is head).  The graph
is read-only during propagation, exactly as in the source.  `fuel` bounds the
iteration count; `triggerLoop_fuel_sufficient` shows the bound used by
`trigger_updates` is never exhausted. -/
def triggerLoop (E : ExprLib) (dependencies : DependencyGraph) :
    Nat → List String → List String → CellGrid → List String → PropResult
  | 0, _, _, _, _ => .outOfFuel
  | _ + 1, [], visited, cells, evals => .done cells evals visited
  | fuel + 1, cell :: rest, visited, cells, evals =>
    if cell ∈ visited then triggerLoop E dependencies fuel rest visited cells evals
    else
      match mapGet dependencies cell with
      | Option.none => triggerLoop E dependencies fuel rest (cell :: visited) cells evals
      | some dependents =>
        match process_dependents E dependents cells rest evals with
        | .error e => .panicked e
        | .ok (cells₂, queue₂, evals₂) =>
          triggerLoop E dependencies fuel queue₂ (cell :: visited) cells₂ evals₂

/-- Total bucket size of the entries of the graph whose key is not yet visited:
the potential function bounding the propagation loop's work. -/
def unvisitedSize (dependencies : DependencyGraph) (visited : List String) : Nat :=
  match dependencies with
  | [] => 0
  | (k, b) :: rest =>
    (if k ∈ visited then 0 else b.length) + unvisitedSize rest visited

/-- Whether a propagation run ran to its end (completed or panicked) rather
than exhausting its fuel. -/
def PropResult.ranToEnd : PropResult → Bool
  | PropResult.outOfFuel => false
  | PropResult.panicked _ => true
  | PropResult.done _ _ _ => true

/-- lib.rs trigger_updates: run the propagation loop from the just-written
cell.  The fuel `unvisitedSize + 2` is provably sufficient
(`triggerLoop_fuel_sufficient`), so the `outOfFuel` branch is unreachable. -/
def trigger_updates (E : ExprLib) (spreadsheet : Spreadsheet) (updated_cell : String) :
    Except String (CellGrid × List String × List String) :=
  match triggerLoop E spreadsheet.dependencies
      (unvisitedSize spreadsheet.dependencies [] + 2)
      [updated_cell] [] spreadsheet.cells [] with
  | .outOfFuel => .error "unreachable: out of fuel"
  | .panicked e => .error e
  | .done cells evals visited => .ok (cells, evals, visited)

/-- lib.rs handle_command, after command parsing (the string parser is the
external library; a malformed command replies with an error and touches no
state).  `Get` reads the store; `Set` builds the context, evaluates, and on
success writes the cell, rebinds its dependencies and propagates, replying
with the root's evaluated value; on evaluation failure it replies with an
error and changes nothing.  `Except.error` models a panic escaping the
handler. -/
def handle_command (E : ExprLib) (command : Command) (s : Spreadsheet) :
    Except String (Reply × Spreadsheet) :=
  match command with
  | Command.Get cell_identifier =>
    let cell_id_str := cell_id_to_string cell_identifier
    let cell_value :=
      match mapGet s.cells cell_id_str with
      | some timed_value => timed_value.value
      | Option.none => CellValue.None
    .ok (Reply.Value cell_id_str cell_value, s)
  | Command.Set cell_identifier cell_expr =>
    let cell_id_str := cell_id_to_string cell_identifier
    match handle_context E cell_expr s.cells with
    | .error e => .error e
    | .ok context =>
      match E.evaluate cell_expr context with
      | .error _ => .ok (Reply.Error "could not evaluate expression", s)
      | .ok value =>
        let cells₂ := mapInsert s.cells cell_id_str ⟨value, some cell_expr⟩
        let deps₂ := update_dependencies s.dependencies cell_id_str (E.find_variable_names cell_expr)
        match trigger_updates E ⟨cells₂, deps₂⟩ cell_id_str with
        | .error e => .error e
        | .ok (cells₃, _, _) => .ok (Reply.Value cell_id_str value, ⟨cells₃, deps₂⟩)

/-- Follows the spec's words (§4.3): the one-dimensional ordered sequence of
cell names covering every cell from start to end inclusive along the single
shared row or column. -/
def spec_range_sequence (startId endId : CellIdentifier) : List String :=
  if startId.row = endId.row then
    (rangeIncl startId.col endId.col).map (fun col => cell_id_to_string ⟨col, startId.row⟩)
  else
    (rangeIncl startId.row endId.row).map (fun row => cell_id_to_string ⟨startId.col, row⟩)

/-- Follows the spec's words (§4.3): the row-major two-dimensional grid of cell
names spanning the inclusive rectangle from start to end. -/
def spec_range_grid (startId endId : CellIdentifier) : List (List String) :=
  (rangeIncl startId.row endId.row).map (fun row =>
    (rangeIncl startId.col endId.col).map (fun col => cell_id_to_string ⟨col, row⟩))

/-- A concrete evaluator instance used by the witnesses and counterexamples:
a handful of expression shapes suffices for the scenarios of the spec. -/
def demoLib : ExprLib where
  find_variable_names expr :=
    if expr = "B1+1" then ["B1"]
    else if expr = "C1" then ["C1"]
    else []
  evaluate expr ctx :=
    if expr = "5" then .ok (CellValue.Int 5)
    else if expr = "100" then .ok (CellValue.Int 100)
    else if expr = "0" then .ok (CellValue.Int 0)
    else if expr = "B1+1" then
      match mapGet ctx "B1" with
      | some (CellArgument.Value (CellValue.Int i)) => .ok (CellValue.Int (i + 1))
      | _ => .error "undefined variable"
    else if expr = "C1" then
      match mapGet ctx "C1" with
      | some (CellArgument.Value v) => .ok v
      | _ => .error "undefined variable"
    else .error "could not parse expression"

theorem mapGet_mapInsert_self {α : Type} (m : List (String × α)) (k : String) (v : α) :
    mapGet (mapInsert m k v) k = some v := by
  induction m with
  | nil => simp [mapGet, mapInsert]
  | cons p rest ih =>
    obtain ⟨k₂, v₂⟩ := p
    by_cases h : k₂ = k
    · simp [mapGet, mapInsert, h]
    · simp [mapGet, mapInsert, h, ih]

theorem mapGet_mapInsert_ne {α : Type} (m : List (String × α)) (k t : String) (v : α)
    (h : k ≠ t) : mapGet (mapInsert m k v) t = mapGet m t := by
  induction m with
  | nil => simp [mapGet, mapInsert, h]
  | cons p rest ih =>
    obtain ⟨k₂, v₂⟩ := p
    by_cases h₂ : k₂ = k
    · subst h₂
      simp [mapGet, mapInsert, h]
    · simp only [mapInsert, if_neg h₂]
      by_cases h₃ : k₂ = t
      · simp [mapGet, h₃]
      · simp [mapGet, h₃, ih]

theorem mapGet_mapValues {α β : Type} (m : List (String × α)) (g : α → β) (t : String) :
    mapGet (m.map (fun p => (p.1, g p.2))) t = (mapGet m t).map g := by
  induction m with
  | nil => simp [mapGet]
  | cons p rest ih =>
    obtain ⟨k, v⟩ := p
    by_cases h : k = t
    · simp [mapGet, h]
    · simp [mapGet, h, ih]

theorem mapGet_pushToBucket_self (d : DependencyGraph) (var c : String) :
    mapGet (pushToBucket d var c) var = some (bucketOf d var ++ [c]) := by
  induction d with
  | nil => simp [pushToBucket, mapGet, bucketOf]
  | cons p rest ih =>
    obtain ⟨k, b⟩ := p
    by_cases h : k = var
    · simp [pushToBucket, mapGet, bucketOf, h]
    · simp [pushToBucket, mapGet, bucketOf, h, ih]

theorem mapGet_pushToBucket_ne (d : DependencyGraph) (var c t : String) (h : var ≠ t) :
    mapGet (pushToBucket d var c) t = mapGet d t := by
  induction d with
  | nil => simp [pushToBucket, mapGet, h]
  | cons p rest ih =>
    obtain ⟨k, b⟩ := p
    by_cases h₂ : k = var
    · subst h₂
      simp [pushToBucket, mapGet, h]
    · simp only [pushToBucket, if_neg h₂]
      by_cases h₃ : k = t
      · simp [mapGet, h₃]
      · simp [mapGet, h₃, ih]

theorem mem_bucket_pushToBucket (d : DependencyGraph) (var c t x : String) :
    x ∈ bucketOf (pushToBucket d var c) t ↔ ((t = var ∧ x = c) ∨ x ∈ bucketOf d t) := by
  by_cases h : var = t
  · subst h
    simp [bucketOf, mapGet_pushToBucket_self]
    tauto
  · rw [bucketOf, mapGet_pushToBucket_ne d var c t h, ← bucketOf]
    simp
    intro h₂
    exact absurd h₂.symm h

theorem mem_bucket_foldl_push (c x : String) (vars : List String) :
    ∀ (d : DependencyGraph) (t : String),
      x ∈ bucketOf (vars.foldl (fun deps var => pushToBucket deps var c) d) t ↔
        ((t ∈ vars ∧ x = c) ∨ x ∈ bucketOf d t) := by
  induction vars with
  | nil => simp
  | cons var rest ih =>
    intro d t
    simp only [List.foldl_cons]
    rw [ih, mem_bucket_pushToBucket]
    simp [List.mem_cons]
    tauto

theorem not_mem_bucket_removed (d : DependencyGraph) (c t : String) :
    c ∉ bucketOf (d.map (fun p => (p.1, p.2.filter (fun dep => dep ≠ c)))) t := by
  rw [bucketOf, mapGet_mapValues]
  cases h : mapGet d t with
  | none => simp
  | some b => simp [List.mem_filter]

theorem mem_bucket_removed_ne (d : DependencyGraph) (c t x : String) (hx : x ≠ c) :
    x ∈ bucketOf (d.map (fun p => (p.1, p.2.filter (fun dep => dep ≠ c)))) t ↔
      x ∈ bucketOf d t := by
  rw [bucketOf, bucketOf, mapGet_mapValues]
  cases h : mapGet d t with
  | none => simp
  | some b => simp [List.mem_filter, hx]

theorem mem_bucket_update_dependencies (d : DependencyGraph) (c : String)
    (vars : List String) (t : String) :
    c ∈ bucketOf (update_dependencies d c vars) t ↔ t ∈ vars := by
  rw [update_dependencies, mem_bucket_foldl_push]
  constructor
  · rintro (⟨h, _⟩ | h)
    · exact h
    · exact absurd h (not_mem_bucket_removed d c t)
  · intro h
    exact Or.inl ⟨h, rfl⟩

theorem mem_bucket_update_dependencies_ne (d : DependencyGraph) (c : String)
    (vars : List String) (t x : String) (hx : x ≠ c) :
    x ∈ bucketOf (update_dependencies d c vars) t ↔ x ∈ bucketOf d t := by
  rw [update_dependencies, mem_bucket_foldl_push]
  rw [mem_bucket_removed_ne d c t x hx]
  constructor
  · rintro (⟨_, h⟩ | h)
    · exact absurd h hx
    · exact h
  · intro h
    exact Or.inr h

theorem bucketOf_eq_of_get (d : DependencyGraph) (cell : String) (b : List String)
    (hg : mapGet d cell = some b) : bucketOf d cell = b := by
  rw [bucketOf, hg]
  rfl

theorem process_dependents_queue_le (E : ExprLib) :
    ∀ (dependents : List String) (cells : CellGrid) (queue evals : List String)
      (cells₂ : CellGrid) (queue₂ evals₂ : List String),
      process_dependents E dependents cells queue evals = .ok (cells₂, queue₂, evals₂) →
      queue₂.length ≤ queue.length + dependents.length := by
  intro dependents
  induction dependents with
  | nil =>
    intro cells queue evals c₂ q₂ e₂ h
    simp only [process_dependents, Except.ok.injEq, Prod.mk.injEq] at h
    obtain ⟨-, hq, -⟩ := h
    subst hq
    simp
  | cons dep rest ih =>
    intro cells queue evals c₂ q₂ e₂ h
    simp only [process_dependents] at h
    cases hg : mapGet cells dep with
    | none =>
      simp only [hg] at h
      have := ih _ _ _ _ _ _ h
      simp at this ⊢
      omega
    | some tv =>
      simp only [hg] at h
      cases hexp : tv.expression with
      | none =>
        simp only [hexp] at h
        have := ih _ _ _ _ _ _ h
        simp at this ⊢
        omega
      | some es =>
        simp only [hexp] at h
        cases hctx : handle_context E es cells with
        | error e =>
          simp only [hctx] at h
          exact absurd h (by simp)
        | ok context =>
          simp only [hctx] at h
          cases heval : E.evaluate es context with
          | ok v =>
            simp only [heval] at h
            have := ih _ _ _ _ _ _ h
            simp at this ⊢
            omega
          | error err =>
            simp only [heval] at h
            have := ih _ _ _ _ _ _ h
            simp at this ⊢
            omega

theorem process_dependents_evals (E : ExprLib) :
    ∀ (dependents : List String) (cells : CellGrid) (queue evals : List String)
      (cells₂ : CellGrid) (queue₂ evals₂ : List String),
      process_dependents E dependents cells queue evals = .ok (cells₂, queue₂, evals₂) →
      ∀ d₂ ∈ evals₂, d₂ ∈ evals ∨ d₂ ∈ dependents := by
  intro dependents
  induction dependents with
  | nil =>
    intro cells queue evals c₂ q₂ e₂ h
    simp only [process_dependents, Except.ok.injEq, Prod.mk.injEq] at h
    obtain ⟨-, -, he⟩ := h
    subst he
    intro d₂ hd
    exact Or.inl hd
  | cons dep rest ih =>
    intro cells queue evals c₂ q₂ e₂ h
    simp only [process_dependents] at h
    cases hg : mapGet cells dep with
    | none =>
      simp only [hg] at h
      intro d₂ hd
      rcases ih _ _ _ _ _ _ h d₂ hd with h₂ | h₂
      · exact Or.inl h₂
      · exact Or.inr (List.mem_cons_of_mem dep h₂)
    | some tv =>
      simp only [hg] at h
      cases hexp : tv.expression with
      | none =>
        simp only [hexp] at h
        intro d₂ hd
        rcases ih _ _ _ _ _ _ h d₂ hd with h₂ | h₂
        · exact Or.inl h₂
        · exact Or.inr (List.mem_cons_of_mem dep h₂)
      | some es =>
        simp only [hexp] at h
        cases hctx : handle_context E es cells with
        | error e =>
          simp only [hctx] at h
          exact absurd h (by simp)
        | ok context =>
          simp only [hctx] at h
          cases heval : E.evaluate es context with
          | ok v =>
            simp only [heval] at h
            intro d₂ hd
            rcases ih _ _ _ _ _ _ h d₂ hd with h₂ | h₂
            · rcases List.mem_append.mp h₂ with h₃ | h₃
              · exact Or.inl h₃
              · simp at h₃
                exact Or.inr (by simp [h₃])
            · exact Or.inr (List.mem_cons_of_mem dep h₂)
          | error err =>
            simp only [heval] at h
            intro d₂ hd
            rcases ih _ _ _ _ _ _ h d₂ hd with h₂ | h₂
            · rcases List.mem_append.mp h₂ with h₃ | h₃
              · exact Or.inl h₃
              · simp at h₃
                exact Or.inr (by simp [h₃])
            · exact Or.inr (List.mem_cons_of_mem dep h₂)

theorem process_dependents_preserves_get (E : ExprLib) (x : String) :
    ∀ (dependents : List String) (cells : CellGrid) (queue evals : List String)
      (cells₂ : CellGrid) (queue₂ evals₂ : List String),
      x ∉ dependents →
      process_dependents E dependents cells queue evals = .ok (cells₂, queue₂, evals₂) →
      mapGet cells₂ x = mapGet cells x := by
  intro dependents
  induction dependents with
  | nil =>
    intro cells queue evals c₂ q₂ e₂ _ h
    simp only [process_dependents, Except.ok.injEq, Prod.mk.injEq] at h
    obtain ⟨hc, -, -⟩ := h
    subst hc
    rfl
  | cons dep rest ih =>
    intro cells queue evals c₂ q₂ e₂ hx h
    have hxd : x ≠ dep := fun he => hx (he ▸ List.mem_cons_self dep rest)
    have hxr : x ∉ rest := fun he => hx (List.mem_cons_of_mem dep he)
    simp only [process_dependents] at h
    cases hg : mapGet cells dep with
    | none =>
      simp only [hg] at h
      exact ih _ _ _ _ _ _ hxr h
    | some tv =>
      simp only [hg] at h
      cases hexp : tv.expression with
      | none =>
        simp only [hexp] at h
        exact ih _ _ _ _ _ _ hxr h
      | some es =>
        simp only [hexp] at h
        cases hctx : handle_context E es cells with
        | error e =>
          simp only [hctx] at h
          exact absurd h (by simp)
        | ok context =>
          simp only [hctx] at h
          cases heval : E.evaluate es context with
          | ok v =>
            simp only [heval] at h
            rw [ih _ _ _ _ _ _ hxr h]
            exact mapGet_mapInsert_ne cells dep x _ (fun he => hxd he.symm)
          | error err =>
            simp only [heval] at h
            rw [ih _ _ _ _ _ _ hxr h]
            exact mapGet_mapInsert_ne cells dep x _ (fun he => hxd he.symm)

theorem unvisitedSize_cons_le (d : DependencyGraph) (c : String) (visited : List String) :
    unvisitedSize d (c :: visited) ≤ unvisitedSize d visited := by
  induction d with
  | nil => simp [unvisitedSize]
  | cons p rest ih =>
    obtain ⟨k, b⟩ := p
    simp only [unvisitedSize]
    by_cases h : k ∈ visited
    · simp [h, List.mem_cons]
      exact ih
    · by_cases h₂ : k = c
      · simp [h, h₂]
        omega
      · simp [h, h₂, List.mem_cons]
        exact ih

theorem unvisitedSize_get (d : DependencyGraph) (cell : String) (visited : List String)
    (b : List String) (hg : mapGet d cell = some b) (hv : cell ∉ visited) :
    unvisitedSize d (cell :: visited) + b.length ≤ unvisitedSize d visited := by
  induction d with
  | nil => simp [mapGet] at hg
  | cons p rest ih =>
    obtain ⟨k, b₂⟩ := p
    simp only [unvisitedSize]
    by_cases h : k = cell
    · subst h
      simp [mapGet] at hg
      subst hg
      have := unvisitedSize_cons_le rest k visited
      simp [hv, List.mem_cons]
      omega
    · simp only [mapGet, if_neg h] at hg
      have := ih hg
      have hm : (k ∈ cell :: visited) ↔ (k ∈ visited) := by
        simp [List.mem_cons]
        intro he
        exact absurd he h
      by_cases h₂ : k ∈ visited
      · simp [h₂, hm.mpr h₂]
        omega
      · have : k ∉ (cell :: visited) := fun hc => h₂ (hm.mp hc)
        simp [h₂, this]
        omega

theorem triggerLoop_fuel_sufficient (E : ExprLib) (deps : DependencyGraph) :
    ∀ (fuel : Nat) (queue visited : List String) (cells : CellGrid) (evals : List String),
      queue.length + unvisitedSize deps visited + 1 ≤ fuel →
      triggerLoop E deps fuel queue visited cells evals ≠ PropResult.outOfFuel := by
  intro fuel
  induction fuel with
  | zero =>
    intro queue visited cells evals h
    omega
  | succ fuel ih =>
    intro queue visited cells evals h
    match queue with
    | [] => simp [triggerLoop]
    | cell :: rest =>
      simp only [triggerLoop]
      by_cases hv : cell ∈ visited
      · rw [if_pos hv]
        apply ih
        simp only [List.length_cons] at h
        omega
      · rw [if_neg hv]
        cases hg : mapGet deps cell with
        | none =>
          apply ih
          have := unvisitedSize_cons_le deps cell visited
          simp only [List.length_cons] at h
          omega
        | some dependents =>
          cases hp : process_dependents E dependents cells rest evals with
          | error e => simp [hp]
          | ok res =>
            obtain ⟨cells₂, queue₂, evals₂⟩ := res
            simp only [hp]
            apply ih
            have h₁ := process_dependents_queue_le E dependents cells rest evals cells₂ queue₂ evals₂ hp
            have h₂ := unvisitedSize_get deps cell visited dependents hg hv
            have h₃ : dependents.length = (bucketOf deps cell).length := by
              rw [bucketOf_eq_of_get deps cell dependents hg]
            simp only [List.length_cons] at h
            omega

theorem triggerLoop_done_inv (E : ExprLib) (deps : DependencyGraph) :
    ∀ (fuel : Nat) (queue visited : List String) (cells : CellGrid) (evals : List String)
      (cells₂ : CellGrid) (evals₂ visited₂ : List String),
      triggerLoop E deps fuel queue visited cells evals = PropResult.done cells₂ evals₂ visited₂ →
      (∀ c ∈ visited, c ∈ visited₂) ∧ (visited.Nodup → visited₂.Nodup) ∧
      (∀ d₂ ∈ evals₂, d₂ ∈ evals ∨ ∃ c ∈ visited₂, d₂ ∈ bucketOf deps c) := by
  intro fuel
  induction fuel with
  | zero =>
    intro queue visited cells evals c₂ e₂ v₂ h
    simp [triggerLoop] at h
  | succ fuel ih =>
    intro queue visited cells evals c₂ e₂ v₂ h
    match queue with
    | [] =>
      simp only [triggerLoop, PropResult.done.injEq] at h
      obtain ⟨hc, he, hv⟩ := h
      subst hc
      subst he
      subst hv
      exact ⟨fun c hc => hc, fun hn => hn, fun d hd => Or.inl hd⟩
    | cell :: rest =>
      simp only [triggerLoop] at h
      by_cases hv : cell ∈ visited
      · rw [if_pos hv] at h
        exact ih _ _ _ _ _ _ _ h
      · rw [if_neg hv] at h
        cases hg : mapGet deps cell with
        | none =>
          simp only [hg] at h
          obtain ⟨h₁, h₂, h₃⟩ := ih _ _ _ _ _ _ _ h
          refine ⟨fun c hc => h₁ c (List.mem_cons_of_mem cell hc), ?_, h₃⟩
          intro hn
          exact h₂ (List.nodup_cons.mpr ⟨hv, hn⟩)
        | some dependents =>
          simp only [hg] at h
          cases hp : process_dependents E dependents cells rest evals with
          | error e => simp [hp] at h
          | ok res =>
            obtain ⟨cells₃, queue₃, evals₃⟩ := res
            simp only [hp] at h
            obtain ⟨h₁, h₂, h₃⟩ := ih _ _ _ _ _ _ _ h
            have hpe := process_dependents_evals E dependents cells rest evals cells₃ queue₃ evals₃ hp
            refine ⟨fun c hc => h₁ c (List.mem_cons_of_mem cell hc), ?_, ?_⟩
            · intro hn
              exact h₂ (List.nodup_cons.mpr ⟨hv, hn⟩)
            · intro d hd
              rcases h₃ d hd with h₄ | h₄
              · rcases hpe d h₄ with h₅ | h₅
                · exact Or.inl h₅
                · refine Or.inr ⟨cell, h₁ cell (List.mem_cons_self cell visited), ?_⟩
                  rw [bucketOf_eq_of_get deps cell dependents hg]
                  exact h₅
              · exact Or.inr h₄

theorem triggerLoop_preserves_get (E : ExprLib) (deps : DependencyGraph) (x : String)
    (hx : ∀ t, x ∉ bucketOf deps t) :
    ∀ (fuel : Nat) (queue visited : List String) (cells : CellGrid) (evals : List String)
      (cells₂ : CellGrid) (evals₂ visited₂ : List String),
      triggerLoop E deps fuel queue visited cells evals = PropResult.done cells₂ evals₂ visited₂ →
      mapGet cells₂ x = mapGet cells x ∧ (x ∉ evals → x ∉ evals₂) := by
  intro fuel
  induction fuel with
  | zero =>
    intro queue visited cells evals c₂ e₂ v₂ h
    simp [triggerLoop] at h
  | succ fuel ih =>
    intro queue visited cells evals c₂ e₂ v₂ h
    match queue with
    | [] =>
      simp only [triggerLoop, PropResult.done.injEq] at h
      obtain ⟨hc, he, hv⟩ := h
      subst hc
      subst he
      exact ⟨rfl, fun hne => hne⟩
    | cell :: rest =>
      simp only [triggerLoop] at h
      by_cases hv : cell ∈ visited
      · rw [if_pos hv] at h
        exact ih _ _ _ _ _ _ _ h
      · rw [if_neg hv] at h
        cases hg : mapGet deps cell with
        | none =>
          simp only [hg] at h
          exact ih _ _ _ _ _ _ _ h
        | some dependents =>
          simp only [hg] at h
          cases hp : process_dependents E dependents cells rest evals with
          | error e => simp [hp] at h
          | ok res =>
            obtain ⟨cells₃, queue₃, evals₃⟩ := res
            simp only [hp] at h
            have hxd : x ∉ dependents := by
              have := hx cell
              rw [bucketOf_eq_of_get deps cell dependents hg] at this
              exact this
            obtain ⟨h₁, h₂⟩ := ih _ _ _ _ _ _ _ h
            have hpg := process_dependents_preserves_get E x dependents cells rest evals cells₃ queue₃ evals₃ hxd hp
            have hpe := process_dependents_evals E dependents cells rest evals cells₃ queue₃ evals₃ hp
            refine ⟨by rw [h₁, hpg], ?_⟩
            intro hne
            apply h₂
            intro hmem
            rcases hpe x hmem with h₃ | h₃
            · exact hne h₃
            · exact hxd h₃

theorem trigger_updates_ok_inv (E : ExprLib) (sp : Spreadsheet) (root : String)
    (cells₂ : CellGrid) (evals₂ visited₂ : List String)
    (h : trigger_updates E sp root = .ok (cells₂, evals₂, visited₂)) :
    triggerLoop E sp.dependencies (unvisitedSize sp.dependencies [] + 2) [root] [] sp.cells [] =
      PropResult.done cells₂ evals₂ visited₂ := by
  cases ht : triggerLoop E sp.dependencies (unvisitedSize sp.dependencies [] + 2) [root] [] sp.cells [] with
  | outOfFuel =>
    simp only [trigger_updates, ht] at h
    exact absurd h (by simp)
  | panicked e =>
    simp only [trigger_updates, ht] at h
    exact absurd h (by simp)
  | done c ev vis =>
    simp only [trigger_updates, ht, Except.ok.injEq, Prod.mk.injEq] at h
    obtain ⟨h₁, h₂, h₃⟩ := h
    subst h₁
    subst h₂
    subst h₃
    rfl

theorem trigger_updates_preserves (E : ExprLib) (sp : Spreadsheet) (root x : String)
    (hx : ∀ t, x ∉ bucketOf sp.dependencies t)
    (cells₂ : CellGrid) (evals₂ visited₂ : List String)
    (h : trigger_updates E sp root = .ok (cells₂, evals₂, visited₂)) :
    mapGet cells₂ x = mapGet sp.cells x ∧ x ∉ evals₂ := by
  have ht := trigger_updates_ok_inv E sp root cells₂ evals₂ visited₂ h
  obtain ⟨h₁, h₂⟩ := triggerLoop_preserves_get E sp.dependencies x hx _ _ _ _ _ _ _ _ ht
  exact ⟨h₁, h₂ (List.not_mem_nil x)⟩

theorem handle_command_get (E : ExprLib) (cid : CellIdentifier) (s : Spreadsheet) :
    handle_command E (Command.Get cid) s =
      .ok (Reply.Value (cell_id_to_string cid) (valueAt s.cells (cell_id_to_string cid)), s) := rfl

theorem handle_command_set_eval_err (E : ExprLib) (cid : CellIdentifier) (expr : String)
    (s : Spreadsheet) (ctx : List (String × CellArgument)) (err : String)
    (hctx : handle_context E expr s.cells = .ok ctx)
    (heval : E.evaluate expr ctx = .error err) :
    handle_command E (Command.Set cid expr) s =
      .ok (Reply.Error "could not evaluate expression", s) := by
  simp only [handle_command, hctx, heval]

theorem handle_command_set_ok_value (E : ExprLib) (cid : CellIdentifier) (expr : String)
    (s : Spreadsheet) (c : String) (v : CellValue) (s₂ : Spreadsheet)
    (h : handle_command E (Command.Set cid expr) s = .ok (Reply.Value c v, s₂)) :
    c = cell_id_to_string cid ∧
    ∃ ctx cells₃ evals₃ visited₃,
      handle_context E expr s.cells = .ok ctx ∧
      E.evaluate expr ctx = .ok v ∧
      trigger_updates E
        ⟨mapInsert s.cells (cell_id_to_string cid) ⟨v, some expr⟩,
          update_dependencies s.dependencies (cell_id_to_string cid) (E.find_variable_names expr)⟩
        (cell_id_to_string cid) = .ok (cells₃, evals₃, visited₃) ∧
      s₂ = ⟨cells₃, update_dependencies s.dependencies (cell_id_to_string cid)
        (E.find_variable_names expr)⟩ := by
  simp only [handle_command] at h
  cases hctx : handle_context E expr s.cells with
  | error e =>
    simp only [hctx] at h
    exact absurd h (by simp)
  | ok ctx =>
    simp only [hctx] at h
    cases heval : E.evaluate expr ctx with
    | error err =>
      simp only [heval] at h
      exact absurd h (by simp)
    | ok value =>
      simp only [heval] at h
      cases htu : trigger_updates E
          ⟨mapInsert s.cells (cell_id_to_string cid) ⟨value, some expr⟩,
            update_dependencies s.dependencies (cell_id_to_string cid)
              (E.find_variable_names expr)⟩
          (cell_id_to_string cid) with
      | error e =>
        simp only [htu] at h
        exact absurd h (by simp)
      | ok res =>
        obtain ⟨cells₃, evals₃, visited₃⟩ := res
        simp only [htu, Except.ok.injEq, Prod.mk.injEq, Reply.Value.injEq] at h
        obtain ⟨⟨hc, hval⟩, hs⟩ := h
        subst hval
        refine ⟨hc.symm, ctx, cells₃, evals₃, visited₃, rfl, heval, htu, hs.symm⟩

theorem handle_command_set_ok_error (E : ExprLib) (cid : CellIdentifier) (expr : String)
    (s : Spreadsheet) (m : String) (s₂ : Spreadsheet)
    (h : handle_command E (Command.Set cid expr) s = .ok (Reply.Error m, s₂)) :
    s₂ = s ∧ m = "could not evaluate expression" ∧
    ∃ ctx err, handle_context E expr s.cells = .ok ctx ∧ E.evaluate expr ctx = .error err := by
  simp only [handle_command] at h
  cases hctx : handle_context E expr s.cells with
  | error e =>
    simp only [hctx] at h
    exact absurd h (by simp)
  | ok ctx =>
    simp only [hctx] at h
    cases heval : E.evaluate expr ctx with
    | error err =>
      simp only [heval, Except.ok.injEq, Prod.mk.injEq, Reply.Error.injEq] at h
      obtain ⟨hm, hs⟩ := h
      exact ⟨hs.symm, hm.symm, ctx, err, rfl, heval⟩
    | ok value =>
      simp only [heval] at h
      cases htu : trigger_updates E
          ⟨mapInsert s.cells (cell_id_to_string cid) ⟨value, some expr⟩,
            update_dependencies s.dependencies (cell_id_to_string cid)
              (E.find_variable_names expr)⟩
          (cell_id_to_string cid) with
      | error e =>
        simp only [htu] at h
        exact absurd h (by simp)
      | ok res =>
        obtain ⟨cells₃, evals₃, visited₃⟩ := res
        simp only [htu] at h
        exact absurd h (by simp)

/-- C8: for every cell name that has never been set, a Get command returns
"no value", never fails, and leaves the cell store (indeed the whole
spreadsheet state) unchanged; any Get leaves the state unchanged. -/
theorem C8_get_never_set :
    (∀ (E : ExprLib) (cid : CellIdentifier) (s : Spreadsheet),
      ∃ reply, handle_command E (Command.Get cid) s = .ok (reply, s)) ∧
    (∀ (E : ExprLib) (cid : CellIdentifier) (s : Spreadsheet),
      mapGet s.cells (cell_id_to_string cid) = Option.none →
      handle_command E (Command.Get cid) s =
        .ok (Reply.Value (cell_id_to_string cid) CellValue.None, s)) := by
  constructor
  · intro E cid s
    exact ⟨_, handle_command_get E cid s⟩
  · intro E cid s hnone
    rw [handle_command_get E cid s, valueAt, hnone]

/-- Witness for C8 at a concrete input: a Get of the never-set cell A1 on the
empty spreadsheet returns "no value" and leaves the state unchanged. -/
theorem C8_witness :
    handle_command demoLib (Command.Get ⟨0, 0⟩) ⟨[], []⟩ =
      .ok (Reply.Value "A1" CellValue.None, (⟨[], []⟩ : Spreadsheet)) := by
  have h := C8_get_never_set.2 demoLib ⟨0, 0⟩ ⟨[], []⟩ rfl
  rw [show cell_id_to_string ⟨0, 0⟩ = "A1" from rfl] at h
  exact h

/-- C4: a Set whose root expression fails to evaluate replies with an error
and leaves the spreadsheet (cell store and dependency graph) unchanged, with
no propagation; a Set that replies with a value replies with the root's name
and the root expression's evaluated value. -/
theorem C4_root_failure_vs_success :
    (∀ (E : ExprLib) (cid : CellIdentifier) (expr : String) (s : Spreadsheet)
        (ctx : List (String × CellArgument)) (err : String),
      handle_context E expr s.cells = .ok ctx →
      E.evaluate expr ctx = .error err →
      handle_command E (Command.Set cid expr) s =
        .ok (Reply.Error "could not evaluate expression", s)) ∧
    (∀ (E : ExprLib) (cid : CellIdentifier) (expr : String) (s : Spreadsheet)
        (m : String) (s₂ : Spreadsheet),
      handle_command E (Command.Set cid expr) s = .ok (Reply.Error m, s₂) → s₂ = s) ∧
    (∀ (E : ExprLib) (cid : CellIdentifier) (expr : String) (s : Spreadsheet)
        (c : String) (v : CellValue) (s₂ : Spreadsheet),
      handle_command E (Command.Set cid expr) s = .ok (Reply.Value c v, s₂) →
      c = cell_id_to_string cid ∧
      ∃ ctx, handle_context E expr s.cells = .ok ctx ∧ E.evaluate expr ctx = .ok v) := by
  refine ⟨fun E cid expr s ctx err h₁ h₂ => handle_command_set_eval_err E cid expr s ctx err h₁ h₂, ?_, ?_⟩
  · intro E cid expr s m s₂ h
    exact (handle_command_set_ok_error E cid expr s m s₂ h).1
  · intro E cid expr s c v s₂ h
    obtain ⟨hc, ctx, _, _, _, hctx, heval, -, -⟩ := handle_command_set_ok_value E cid expr s c v s₂ h
    exact ⟨hc, ctx, hctx, heval⟩

/-- Witness for C4 at concrete inputs: `Set A1 bad` (unparseable expression)
on the empty sheet replies with an error and changes nothing, and the value
reply of `Set A1 5` carries A1's evaluated value 5. -/
theorem C4_witness :
    (handle_command demoLib (Command.Set ⟨0, 0⟩ "bad") ⟨[], []⟩ =
      .ok (Reply.Error "could not evaluate expression", (⟨[], []⟩ : Spreadsheet))) ∧
    ("A1" = cell_id_to_string ⟨0, 0⟩ ∧
      ∃ ctx, handle_context demoLib "5" (⟨[], []⟩ : Spreadsheet).cells = .ok ctx ∧
        demoLib.evaluate "5" ctx = .ok (CellValue.Int 5)) := by
  constructor
  · exact C4_root_failure_vs_success.1 demoLib ⟨0, 0⟩ "bad" ⟨[], []⟩ []
      "could not parse expression" rfl rfl
  · exact C4_root_failure_vs_success.2.2 demoLib ⟨0, 0⟩ "5" ⟨[], []⟩ "A1" (CellValue.Int 5)
      ⟨[("A1", ⟨CellValue.Int 5, some "5"⟩)], []⟩ rfl

/-- C10: the claim that variable resolution is total is refuted by the code:
on the range token "B2_A1", whose two halves parse as the well-formed cell
identifiers B2 and A1 but whose end column precedes its start column, the
expanded range is empty and `resolve_variable` panics (indexing `range[0]`
on an empty vector) instead of returning. -/
theorem C10_reversed_range_panics :
    resolve_variable "B2_A1" [] = .error "panic: index out of bounds on empty range" ∧
    parseCellIdentifier "B2" = some ⟨1, 1⟩ ∧ parseCellIdentifier "A1" = some ⟨0, 0⟩ :=
  ⟨rfl, rfl, rfl⟩

/-- C1: after a successful Set of cell C with expression E, C appears as a
dependent exactly in the buckets keyed by E's variable tokens (and in no
other bucket, in particular none of its previous buckets); consequently in
the scenario `Set A1 B1+1`, `Set A1 5`, `Set B1 100`, the last write does
not recompute A1 and A1's value remains 5. -/
theorem C1_set_rebinds_dependencies :
    (∀ (E : ExprLib) (cid : CellIdentifier) (expr : String) (s : Spreadsheet)
        (c : String) (v : CellValue) (s₂ : Spreadsheet),
      handle_command E (Command.Set cid expr) s = .ok (Reply.Value c v, s₂) →
      ∀ token, cell_id_to_string cid ∈ bucketOf s₂.dependencies token ↔
        token ∈ E.find_variable_names expr) ∧
    (∀ (E : ExprLib) (s₁ s₂ s₃ s₄ : Spreadsheet) (r₁ v₂ v₃ : CellValue),
      E.find_variable_names "5" = [] →
      E.find_variable_names "100" = [] →
      E.evaluate "5" [] = .ok (CellValue.Int 5) →
      handle_command E (Command.Set ⟨0, 0⟩ "B1+1") s₁ = .ok (Reply.Value "A1" r₁, s₂) →
      handle_command E (Command.Set ⟨0, 0⟩ "5") s₂ = .ok (Reply.Value "A1" v₂, s₃) →
      handle_command E (Command.Set ⟨1, 0⟩ "100") s₃ = .ok (Reply.Value "B1" v₃, s₄) →
      mapGet s₄.cells "A1" = some ⟨CellValue.Int 5, some "5"⟩) := by
  constructor
  · intro E cid expr s c v s₂ h token
    obtain ⟨-, -, cells₃, -, -, -, -, -, hs₂⟩ := handle_command_set_ok_value E cid expr s c v s₂ h
    rw [hs₂]
    exact mem_bucket_update_dependencies s.dependencies (cell_id_to_string cid)
      (E.find_variable_names expr) token
  · intro E s₁ s₂ s₃ s₄ r₁ v₂ v₃ hf5 hf100 he5 h₁ h₂ h₃
    have hA1 : cell_id_to_string ⟨0, 0⟩ = "A1" := rfl
    have hB1 : cell_id_to_string ⟨1, 0⟩ = "B1" := rfl
    obtain ⟨-, ctx₂, cells₃, ev₃, vis₃, hctx₂, heval₂, htu₂, hs₃⟩ :=
      handle_command_set_ok_value E ⟨0, 0⟩ "5" s₂ "A1" v₂ s₃ h₂
    rw [hA1] at htu₂ hs₃
    rw [hf5] at htu₂ hs₃
    have hctx₂e : ctx₂ = [] := by
      rw [handle_context, hf5] at hctx₂
      simp [buildContext] at hctx₂
      exact hctx₂
    have hv₂ : v₂ = CellValue.Int 5 := by
      rw [hctx₂e, he5] at heval₂
      exact (by simpa using heval₂ : CellValue.Int 5 = v₂).symm
    rw [hv₂] at htu₂
    have hA1nb : ∀ t, "A1" ∉ bucketOf (update_dependencies s₂.dependencies "A1" []) t := by
      intro t h
      rw [mem_bucket_update_dependencies] at h
      simp at h
    obtain ⟨hp₂, -⟩ := trigger_updates_preserves E
      ⟨mapInsert s₂.cells "A1" ⟨CellValue.Int 5, some "5"⟩,
        update_dependencies s₂.dependencies "A1" []⟩ "A1" "A1" hA1nb cells₃ ev₃ vis₃ htu₂
    have hval₃ : mapGet s₃.cells "A1" = some ⟨CellValue.Int 5, some "5"⟩ := by
      rw [hs₃]
      simp only []
      rw [hp₂]
      exact mapGet_mapInsert_self s₂.cells "A1" ⟨CellValue.Int 5, some "5"⟩
    have hdeps₃ : s₃.dependencies = update_dependencies s₂.dependencies "A1" [] := by
      rw [hs₃]
    obtain ⟨-, ctx₃, cells₄, ev₄, vis₄, hctx₃, heval₃, htu₃, hs₄⟩ :=
      handle_command_set_ok_value E ⟨1, 0⟩ "100" s₃ "B1" v₃ s₄ h₃
    rw [hB1] at htu₃ hs₄
    rw [hf100] at htu₃ hs₄
    have hA1nb₃ : ∀ t, "A1" ∉ bucketOf (update_dependencies s₃.dependencies "B1" []) t := by
      intro t h
      rw [mem_bucket_update_dependencies_ne s₃.dependencies "B1" [] t "A1"
        (by decide)] at h
      rw [hdeps₃] at h
      exact hA1nb t h
    obtain ⟨hp₃, -⟩ := trigger_updates_preserves E
      ⟨mapInsert s₃.cells "B1" ⟨v₃, some "100"⟩,
        update_dependencies s₃.dependencies "B1" []⟩ "B1" "A1" hA1nb₃ cells₄ ev₄ vis₄ htu₃
    rw [hs₄]
    simp only []
    rw [hp₃]
    rw [mapGet_mapInsert_ne s₃.cells "B1" "A1" ⟨v₃, some "100"⟩ (by decide)]
    exact hval₃

/-- Witness for C1 at a concrete run with a concrete evaluator: after
`Set A1 B1+1` (starting from a sheet where B1 is 1), A1 sits exactly in B1's
bucket, and after `Set A1 5` then `Set B1 100`, A1 still holds 5 with
expression "5". -/
theorem C1_witness :
    ("A1" ∈ bucketOf [("B1", ["A1"])] "B1" ↔
      "B1" ∈ demoLib.find_variable_names "B1+1") ∧
    mapGet ([("B1", ⟨CellValue.Int 100, some "100"⟩),
             ("A1", ⟨CellValue.Int 5, some "5"⟩)] : CellGrid) "A1" =
      some ⟨CellValue.Int 5, some "5"⟩ := by
  constructor
  · exact C1_set_rebinds_dependencies.1 demoLib ⟨0, 0⟩ "B1+1"
      ⟨[("B1", ⟨CellValue.Int 1, some "1"⟩)], []⟩ "A1" (CellValue.Int 2)
      ⟨[("B1", ⟨CellValue.Int 1, some "1"⟩), ("A1", ⟨CellValue.Int 2, some "B1+1"⟩)],
        [("B1", ["A1"])]⟩ rfl "B1"
  · exact C1_set_rebinds_dependencies.2 demoLib
      ⟨[("B1", ⟨CellValue.Int 1, some "1"⟩)], []⟩
      ⟨[("B1", ⟨CellValue.Int 1, some "1"⟩), ("A1", ⟨CellValue.Int 2, some "B1+1"⟩)],
        [("B1", ["A1"])]⟩
      ⟨[("B1", ⟨CellValue.Int 1, some "1"⟩), ("A1", ⟨CellValue.Int 5, some "5"⟩)],
        [("B1", [])]⟩
      ⟨[("B1", ⟨CellValue.Int 100, some "100"⟩), ("A1", ⟨CellValue.Int 5, some "5"⟩)],
        [("B1", [])]⟩
      (CellValue.Int 2) (CellValue.Int 5) (CellValue.Int 100)
      rfl rfl rfl rfl rfl rfl

theorem buildContext_skip_none (cells : CellGrid) (var : String) :
    ∀ (vars : List String) (acc ctx : List (String × CellArgument)),
      buildContext vars cells acc = .ok ctx →
      resolve_variable var cells = .ok Option.none →
      mapGet acc var = Option.none →
      mapGet ctx var = Option.none := by
  intro vars
  induction vars with
  | nil =>
    intro acc ctx h hres hacc
    simp only [buildContext, Except.ok.injEq] at h
    subst h
    exact hacc
  | cons v rest ih =>
    intro acc ctx h hres hacc
    simp only [buildContext] at h
    cases hr : resolve_variable v cells with
    | error e =>
      simp only [hr] at h
      exact absurd h (by simp)
    | ok o =>
      cases o with
      | none =>
        simp only [hr] at h
        exact ih acc ctx h hres hacc
      | some arg =>
        simp only [hr] at h
        by_cases hvv : v = var
        · subst hvv
          rw [hres] at hr
          simp at hr
        · refine ih (mapInsert acc v arg) ctx h hres ?_
          rw [mapGet_mapInsert_ne acc v var arg hvv]
          exact hacc

/-- C3 (amended): the resolver substitution rules hold — a stored cell with
"no value" resolves to the scalar integer zero and a stored cell holding an
error value is excluded from the evaluation context entirely — but in the
scenario `Set A1 C1` while C1 holds an error, the Set itself replies with an
error and writes nothing, so a later `Get A1` returns A1's prior value ("no
value" if A1 was never set), not an error. -/
theorem C3_error_cells_excluded :
    (∀ (cells : CellGrid) (var : String) (tv : TimedCellValue),
      mapGet cells var = some tv →
      (tv.value = CellValue.None →
        resolve_variable var cells = .ok (some (CellArgument.Value (CellValue.Int 0)))) ∧
      (∀ e, tv.value = CellValue.Error e → resolve_variable var cells = .ok Option.none)) ∧
    (∀ (E : ExprLib) (expr : String) (cells : CellGrid)
        (ctx : List (String × CellArgument)) (var : String) (tv : TimedCellValue) (e : String),
      handle_context E expr cells = .ok ctx →
      mapGet cells var = some tv → tv.value = CellValue.Error e →
      mapGet ctx var = Option.none) ∧
    (∀ (E : ExprLib) (s : Spreadsheet) (tv : TimedCellValue) (e err : String),
      E.find_variable_names "C1" = ["C1"] →
      mapGet s.cells "C1" = some tv → tv.value = CellValue.Error e →
      E.evaluate "C1" [] = .error err →
      handle_command E (Command.Set ⟨0, 0⟩ "C1") s =
        .ok (Reply.Error "could not evaluate expression", s) ∧
      handle_command E (Command.Get ⟨0, 0⟩) s =
        .ok (Reply.Value "A1" (valueAt s.cells "A1"), s)) := by
  refine ⟨?_, ?_, ?_⟩
  · intro cells var tv hget
    constructor
    · intro hv
      simp only [resolve_variable, hget, hv]
    · intro e hv
      simp only [resolve_variable, hget, hv]
  · intro E expr cells ctx var tv e hctx hget hv
    have hres : resolve_variable var cells = .ok Option.none := by
      simp only [resolve_variable, hget, hv]
    exact buildContext_skip_none cells var (E.find_variable_names expr) [] ctx hctx hres rfl
  · intro E s tv e err hf hget hv heval
    have hres : resolve_variable "C1" s.cells = .ok Option.none := by
      simp only [resolve_variable, hget, hv]
    have hctx : handle_context E "C1" s.cells = .ok [] := by
      rw [handle_context, hf]
      simp only [buildContext, hres]
    constructor
    · exact handle_command_set_eval_err E ⟨0, 0⟩ "C1" s [] err hctx heval
    · have h := handle_command_get E ⟨0, 0⟩ s
      rw [show cell_id_to_string ⟨0, 0⟩ = "A1" from rfl] at h
      exact h

/-- Counterexample for C3 as stated: with C1 holding an error value and A1
never set, `Set A1 C1` replies with an error and leaves the state unchanged,
and the subsequent `Get A1` returns "no value" — not an error as the claim
asserts. -/
theorem C3_counterexample :
    handle_command demoLib (Command.Set ⟨0, 0⟩ "C1")
      ⟨[("C1", ⟨CellValue.Error "boom", some "x"⟩)], []⟩ =
      .ok (Reply.Error "could not evaluate expression",
        (⟨[("C1", ⟨CellValue.Error "boom", some "x"⟩)], []⟩ : Spreadsheet)) ∧
    handle_command demoLib (Command.Get ⟨0, 0⟩)
      ⟨[("C1", ⟨CellValue.Error "boom", some "x"⟩)], []⟩ =
      .ok (Reply.Value "A1" CellValue.None,
        (⟨[("C1", ⟨CellValue.Error "boom", some "x"⟩)], []⟩ : Spreadsheet)) :=
  ⟨rfl, rfl⟩

/-- Witness for C3 at concrete inputs: the zero substitution for a "no value"
cell, the exclusion of an error-valued cell from resolution and from the
built context, and the error reply of the corrected scenario. -/
theorem C3_witness :
    resolve_variable "D1" [("D1", ⟨CellValue.None, Option.none⟩)] =
      .ok (some (CellArgument.Value (CellValue.Int 0))) ∧
    resolve_variable "C1" [("C1", ⟨CellValue.Error "boom", some "x"⟩)] = .ok Option.none ∧
    mapGet ([] : List (String × CellArgument)) "C1" = Option.none ∧
    handle_command demoLib (Command.Set ⟨0, 0⟩ "C1")
      ⟨[("C1", ⟨CellValue.Error "boom", some "y"⟩)], [("Z9", [])]⟩ =
      .ok (Reply.Error "could not evaluate expression",
        (⟨[("C1", ⟨CellValue.Error "boom", some "y"⟩)], [("Z9", [])]⟩ : Spreadsheet)) := by
  refine ⟨?_, ?_, ?_, ?_⟩
  · exact (C3_error_cells_excluded.1 [("D1", ⟨CellValue.None, Option.none⟩)] "D1"
      ⟨CellValue.None, Option.none⟩ rfl).1 rfl
  · exact (C3_error_cells_excluded.1 [("C1", ⟨CellValue.Error "boom", some "x"⟩)] "C1"
      ⟨CellValue.Error "boom", some "x"⟩ rfl).2 "boom" rfl
  · exact C3_error_cells_excluded.2.1 demoLib "C1"
      [("C1", ⟨CellValue.Error "boom", some "x"⟩)] [] "C1"
      ⟨CellValue.Error "boom", some "x"⟩ "boom" rfl rfl rfl
  · exact (C3_error_cells_excluded.2.2 demoLib
      ⟨[("C1", ⟨CellValue.Error "boom", some "y"⟩)], [("Z9", [])]⟩
      ⟨CellValue.Error "boom", some "y"⟩ "boom" "undefined variable"
      rfl rfl rfl rfl).1

/-- C5 (amended): during propagation each re-evaluated dependent has the
result written back — the new value on success, an error value on failure —
and the loop continues with the remaining dependents in both cases; the
dependent is pushed onto the work queue on success only, not on failure. -/
theorem C5_dependent_writeback :
    ∀ (E : ExprLib) (dependent : String) (rest : List String) (cells : CellGrid)
      (queue evals : List String) (tv : TimedCellValue) (es : String)
      (ctx : List (String × CellArgument)),
      mapGet cells dependent = some tv →
      tv.expression = some es →
      handle_context E es cells = .ok ctx →
      (∀ v, E.evaluate es ctx = .ok v →
        process_dependents E (dependent :: rest) cells queue evals =
          process_dependents E rest (mapInsert cells dependent ⟨v, some es⟩)
            (dependent :: queue) (evals ++ [dependent])) ∧
      (∀ err, E.evaluate es ctx = .error err →
        process_dependents E (dependent :: rest) cells queue evals =
          process_dependents E rest
            (mapInsert cells dependent ⟨CellValue.Error "evaluation failed", some es⟩)
            queue (evals ++ [dependent])) := by
  intro E dependent rest cells queue evals tv es ctx hget hexp hctx
  constructor
  · intro v hv
    simp only [process_dependents, hget, hexp, hctx, hv]
  · intro err herr
    simp only [process_dependents, hget, hexp, hctx, herr]

/-- Counterexample for C5 as stated: dependent D1 whose re-evaluation fails
is written back as an error value but is NOT enqueued — the step returns an
empty queue, and in the full run D1 is never expanded, so D1's own dependent
F1 is never re-evaluated (the evaluation trace is just ["D1"] and the
visited set just ["A1"]). -/
theorem C5_counterexample :
    process_dependents demoLib ["D1"]
      [("D1", ⟨CellValue.Int 1, some "bad"⟩), ("F1", ⟨CellValue.Int 7, some "0"⟩)] [] [] =
      .ok ([("D1", ⟨CellValue.Error "evaluation failed", some "bad"⟩),
            ("F1", ⟨CellValue.Int 7, some "0"⟩)], [], ["D1"]) ∧
    triggerLoop demoLib [("A1", ["D1"]), ("D1", ["F1"])] 10 ["A1"] []
      [("D1", ⟨CellValue.Int 1, some "bad"⟩), ("F1", ⟨CellValue.Int 7, some "0"⟩)] [] =
      PropResult.done [("D1", ⟨CellValue.Error "evaluation failed", some "bad"⟩),
        ("F1", ⟨CellValue.Int 7, some "0"⟩)] ["D1"] ["A1"] :=
  ⟨rfl, rfl⟩

/-- Witness for C5 at concrete inputs: the failure case (D1's expression
fails: error written, not enqueued) and the success case (F1's expression
succeeds: value written, F1 enqueued). -/
theorem C5_witness :
    process_dependents demoLib ["D1"] [("D1", ⟨CellValue.Int 1, some "bad"⟩)] [] [] =
      process_dependents demoLib []
        (mapInsert [("D1", ⟨CellValue.Int 1, some "bad"⟩)] "D1"
          ⟨CellValue.Error "evaluation failed", some "bad"⟩) [] ["D1"] ∧
    process_dependents demoLib ["F1"] [("F1", ⟨CellValue.Int 7, some "0"⟩)] [] [] =
      process_dependents demoLib []
        (mapInsert [("F1", ⟨CellValue.Int 7, some "0"⟩)] "F1" ⟨CellValue.Int 0, some "0"⟩)
        ["F1"] ["F1"] := by
  constructor
  · exact (C5_dependent_writeback demoLib "D1" [] [("D1", ⟨CellValue.Int 1, some "bad"⟩)]
      [] [] ⟨CellValue.Int 1, some "bad"⟩ "bad" [] rfl rfl rfl).2
      "could not parse expression" rfl
  · exact (C5_dependent_writeback demoLib "F1" [] [("F1", ⟨CellValue.Int 7, some "0"⟩)]
      [] [] ⟨CellValue.Int 7, some "0"⟩ "0" [] rfl rfl rfl).1
      (CellValue.Int 0) rfl

/-- C2 (amended): in any completed propagation run each cell is expanded at
most once (the final visited list is duplicate-free), and every
re-evaluation event targets a recorded dependent of some expanded cell; a
given dependent may however be re-evaluated several times — once per
expanded cell whose bucket lists it — or zero times, not exactly once. -/
theorem C2_each_cell_expanded_once :
    ∀ (E : ExprLib) (deps : DependencyGraph) (fuel : Nat) (root : String)
      (cells cells₂ : CellGrid) (evals₂ visited₂ : List String),
      triggerLoop E deps fuel [root] [] cells [] = PropResult.done cells₂ evals₂ visited₂ →
      visited₂.Nodup ∧ ∀ d ∈ evals₂, ∃ c ∈ visited₂, d ∈ bucketOf deps c := by
  intro E deps fuel root cells cells₂ evals₂ visited₂ h
  obtain ⟨-, h₂, h₃⟩ := triggerLoop_done_inv E deps fuel [root] [] cells [] cells₂ evals₂ visited₂ h
  refine ⟨h₂ List.nodup_nil, ?_⟩
  intro d hd
  rcases h₃ d hd with h₄ | h₄
  · exact absurd h₄ (List.not_mem_nil d)
  · exact h₄

/-- Counterexample for C2 as stated: with buckets A1 ↦ [B1, C1] and
B1 ↦ [C1], the propagation triggered by a write of A1 re-evaluates the
direct dependent C1 twice in one run (evaluation trace ["B1", "C1", "C1"]),
refuting "exactly once per triggering write". -/
theorem C2_counterexample :
    triggerLoop demoLib [("A1", ["B1", "C1"]), ("B1", ["C1"])] 10 ["A1"] []
      [("B1", ⟨CellValue.Int 0, some "0"⟩), ("C1", ⟨CellValue.Int 0, some "0"⟩)] [] =
      PropResult.done
        [("B1", ⟨CellValue.Int 0, some "0"⟩), ("C1", ⟨CellValue.Int 0, some "0"⟩)]
        ["B1", "C1", "C1"] ["B1", "C1", "A1"] ∧
    (["B1", "C1", "C1"] : List String).count "C1" = 2 ∧
    "C1" ∈ bucketOf [("A1", ["B1", "C1"]), ("B1", ["C1"])] "A1" := by
  refine ⟨rfl, rfl, ?_⟩
  decide

/-- Witness for C2's amended theorem at the same concrete run: the expanded
cells ["B1", "C1", "A1"] are duplicate-free, and the re-evaluation event
"C1" targets a recorded dependent of one of them. -/
theorem C2_witness :
    (["B1", "C1", "A1"] : List String).Nodup ∧
    ∃ c ∈ (["B1", "C1", "A1"] : List String),
      "C1" ∈ bucketOf [("A1", ["B1", "C1"]), ("B1", ["C1"])] c := by
  have h := C2_each_cell_expanded_once demoLib [("A1", ["B1", "C1"]), ("B1", ["C1"])] 10 "A1"
    [("B1", ⟨CellValue.Int 0, some "0"⟩), ("C1", ⟨CellValue.Int 0, some "0"⟩)]
    [("B1", ⟨CellValue.Int 0, some "0"⟩), ("C1", ⟨CellValue.Int 0, some "0"⟩)]
    ["B1", "C1", "C1"] ["B1", "C1", "A1"] rfl
  exact ⟨h.1, h.2 "C1" (by decide)⟩

/-- C6 (amended): the propagation loop terminates when the work queue
empties, and it terminates on EVERY input — including a store whose
expressions form a true circular dependency — because the visited set
prevents reprocessing; fuel `unvisitedSize + 2` always completes the run. -/
theorem C6_propagation_always_terminates :
    ∀ (E : ExprLib) (deps : DependencyGraph) (root : String) (cells : CellGrid),
      (triggerLoop E deps (unvisitedSize deps [] + 2) [root] [] cells []).ranToEnd = true := by
  intro E deps root cells
  cases h : triggerLoop E deps (unvisitedSize deps [] + 2) [root] [] cells [] with
  | outOfFuel =>
    exact absurd h (triggerLoop_fuel_sufficient E deps _ [root] [] cells []
      (by simp only [List.length_singleton]; omega))
  | panicked e => rfl
  | done a b c => rfl

/-- Counterexample for C6 as stated: a store whose two stored expressions form
a true circular dependency (A1 and B1 each depending on the other) has a
terminating propagation run, and no input whatsoever makes the loop run
forever (every run completes within fuel `unvisitedSize + 2`). -/
theorem C6_counterexample :
    (triggerLoop demoLib [("A1", ["B1"]), ("B1", ["A1"])] 10 ["B1"] []
      [("A1", ⟨CellValue.Int 0, some "0"⟩), ("B1", ⟨CellValue.Int 0, some "0"⟩)] [] =
      PropResult.done
        [("A1", ⟨CellValue.Int 0, some "0"⟩), ("B1", ⟨CellValue.Int 0, some "0"⟩)]
        ["A1", "B1"] ["A1", "B1"]) ∧
    ¬ ∃ (E : ExprLib) (deps : DependencyGraph) (root : String) (cells : CellGrid),
        ∀ fuel, triggerLoop E deps fuel [root] [] cells [] = PropResult.outOfFuel := by
  refine ⟨rfl, ?_⟩
  rintro ⟨E, deps, root, cells, h⟩
  exact triggerLoop_fuel_sufficient E deps (unvisitedSize deps [] + 2) [root] [] cells []
    (by simp only [List.length_singleton]; omega) (h _)

theorem colChar_val : ∀ d, d < 26 → (colChar d).toNat - 64 = d + 1 := by decide

theorem colChar_upper : ∀ d, d < 26 → isUpperChar (colChar d) = true := by decide

theorem digitChar_val : ∀ d, d < 10 → (digitChar d).toNat - 48 = d := by decide

theorem digitChar_digit : ∀ d, d < 10 → isDigitChar (digitChar d) = true := by decide

theorem digitChar_not_upper : ∀ d, d < 10 → isUpperChar (digitChar d) = false := by decide

theorem colNameAux_ne_nil : ∀ (fuel n : Nat), n < fuel → colNameAux fuel n ≠ [] := by
  intro fuel
  induction fuel with
  | zero => intro n h; omega
  | succ fuel ih =>
    intro n h
    rw [colNameAux]
    by_cases h26 : n < 26
    · simp [h26]
    · simp [h26]

theorem colNameAux_upper : ∀ (fuel n : Nat), n < fuel →
    ∀ c ∈ colNameAux fuel n, isUpperChar c = true := by
  intro fuel
  induction fuel with
  | zero => intro n h; omega
  | succ fuel ih =>
    intro n h c hc
    rw [colNameAux] at hc
    by_cases h26 : n < 26
    · rw [if_pos h26] at hc
      simp at hc
      subst hc
      exact colChar_upper n h26
    · rw [if_neg h26] at hc
      rcases List.mem_append.mp hc with h₂ | h₂
      · have hdiv : n / 26 < n := Nat.div_lt_self (by omega) (by omega)
        exact ih (n / 26 - 1) (by omega) c h₂
      · simp at h₂
        subst h₂
        exact colChar_upper (n % 26) (Nat.mod_lt n (by omega))

theorem colNameAux_foldl : ∀ (fuel n : Nat), n < fuel → ∀ acc,
    (colNameAux fuel n).foldl (fun acc c => acc * 26 + (c.toNat - 64)) acc =
      acc * 26 ^ (colNameAux fuel n).length + (n + 1) := by
  intro fuel
  induction fuel with
  | zero => intro n h; omega
  | succ fuel ih =>
    intro n h acc
    rw [colNameAux]
    by_cases h26 : n < 26
    · simp only [if_pos h26, List.foldl_cons, List.foldl_nil, List.length_singleton, pow_one]
      rw [colChar_val n h26]
    · simp only [if_neg h26, List.foldl_append, List.foldl_cons, List.foldl_nil,
        List.length_append, List.length_singleton]
      have hdiv : n / 26 < n := Nat.div_lt_self (by omega) (by omega)
      rw [ih (n / 26 - 1) (by omega) acc]
      rw [colChar_val (n % 26) (Nat.mod_lt n (by omega))]
      have hone : 1 ≤ n / 26 := (Nat.one_le_div_iff (by omega)).mpr (by omega)
      have hm1 : n / 26 - 1 + 1 = n / 26 := by omega
      rw [hm1, pow_succ, Nat.add_mul, mul_assoc]
      have hdm := Nat.div_add_mod n 26
      generalize acc * (26 ^ (colNameAux fuel (n / 26 - 1)).length * 26) = A
      omega

theorem natToDigitsAux_ne_nil : ∀ (fuel n : Nat), n < fuel → natToDigitsAux fuel n ≠ [] := by
  intro fuel
  induction fuel with
  | zero => intro n h; omega
  | succ fuel ih =>
    intro n h
    rw [natToDigitsAux]
    by_cases h10 : n < 10
    · simp [h10]
    · simp [h10]

theorem natToDigitsAux_digit : ∀ (fuel n : Nat), n < fuel →
    ∀ c ∈ natToDigitsAux fuel n, isDigitChar c = true := by
  intro fuel
  induction fuel with
  | zero => intro n h; omega
  | succ fuel ih =>
    intro n h c hc
    rw [natToDigitsAux] at hc
    by_cases h10 : n < 10
    · rw [if_pos h10] at hc
      simp at hc
      subst hc
      exact digitChar_digit n h10
    · rw [if_neg h10] at hc
      rcases List.mem_append.mp hc with h₂ | h₂
      · have hdiv : n / 10 < n := Nat.div_lt_self (by omega) (by omega)
        exact ih (n / 10) (by omega) c h₂
      · simp at h₂
        subst h₂
        exact digitChar_digit (n % 10) (Nat.mod_lt n (by omega))

theorem natToDigitsAux_not_upper : ∀ (fuel n : Nat), n < fuel →
    ∀ c ∈ natToDigitsAux fuel n, isUpperChar c = false := by
  intro fuel
  induction fuel with
  | zero => intro n h; omega
  | succ fuel ih =>
    intro n h c hc
    rw [natToDigitsAux] at hc
    by_cases h10 : n < 10
    · rw [if_pos h10] at hc
      simp at hc
      subst hc
      exact digitChar_not_upper n h10
    · rw [if_neg h10] at hc
      rcases List.mem_append.mp hc with h₂ | h₂
      · have hdiv : n / 10 < n := Nat.div_lt_self (by omega) (by omega)
        exact ih (n / 10) (by omega) c h₂
      · simp at h₂
        subst h₂
        exact digitChar_not_upper (n % 10) (Nat.mod_lt n (by omega))

theorem natToDigitsAux_foldl : ∀ (fuel n : Nat), n < fuel → ∀ acc,
    (natToDigitsAux fuel n).foldl (fun acc c => acc * 10 + (c.toNat - 48)) acc =
      acc * 10 ^ (natToDigitsAux fuel n).length + n := by
  intro fuel
  induction fuel with
  | zero => intro n h; omega
  | succ fuel ih =>
    intro n h acc
    rw [natToDigitsAux]
    by_cases h10 : n < 10
    · simp only [if_pos h10, List.foldl_cons, List.foldl_nil, List.length_singleton, pow_one]
      rw [digitChar_val n h10]
    · simp only [if_neg h10, List.foldl_append, List.foldl_cons, List.foldl_nil,
        List.length_append, List.length_singleton]
      have hdiv : n / 10 < n := Nat.div_lt_self (by omega) (by omega)
      rw [ih (n / 10) (by omega) acc]
      rw [digitChar_val (n % 10) (Nat.mod_lt n (by omega))]
      rw [pow_succ, Nat.add_mul, mul_assoc]
      have hdm := Nat.div_add_mod n 10
      generalize acc * (10 ^ (natToDigitsAux fuel (n / 10)).length * 10) = A
      omega

theorem takeWhile_append_all {α : Type} (p : α → Bool) :
    ∀ (l₁ l₂ : List α), (∀ c ∈ l₁, p c = true) →
      (l₁ ++ l₂).takeWhile p = l₁ ++ l₂.takeWhile p := by
  intro l₁ l₂
  induction l₁ with
  | nil => intro h; rfl
  | cons a l ih =>
    intro h
    have ha : p a = true := h a (List.mem_cons_self a l)
    have ih₂ := ih (fun c hc => h c (List.mem_cons_of_mem a hc))
    simp [List.takeWhile_cons, ha, ih₂]

theorem dropWhile_append_all {α : Type} (p : α → Bool) :
    ∀ (l₁ l₂ : List α), (∀ c ∈ l₁, p c = true) →
      (l₁ ++ l₂).dropWhile p = l₂.dropWhile p := by
  intro l₁ l₂
  induction l₁ with
  | nil => intro h; rfl
  | cons a l ih =>
    intro h
    have ha : p a = true := h a (List.mem_cons_self a l)
    have ih₂ := ih (fun c hc => h c (List.mem_cons_of_mem a hc))
    simp [List.dropWhile_cons, ha, ih₂]

theorem takeWhile_nil_of_all_false {α : Type} (p : α → Bool) (l : List α)
    (h : ∀ c ∈ l, p c = false) : l.takeWhile p = [] := by
  cases l with
  | nil => rfl
  | cons a l => simp [List.takeWhile_cons, h a (List.mem_cons_self a l)]

theorem dropWhile_self_of_all_false {α : Type} (p : α → Bool) (l : List α)
    (h : ∀ c ∈ l, p c = false) : l.dropWhile p = l := by
  cases l with
  | nil => rfl
  | cons a l => simp [List.dropWhile_cons, h a (List.mem_cons_self a l)]

theorem parseCellIdChars_split (L D : List Char) (hLne : L ≠ []) (hDne : D ≠ [])
    (hLu : ∀ c ∈ L, isUpperChar c = true) (hDnu : ∀ c ∈ D, isUpperChar c = false)
    (hDd : ∀ c ∈ D, isDigitChar c = true) (hval : digitsVal D ≠ 0) :
    parseCellIdChars (L ++ D) = some ⟨lettersVal L - 1, digitsVal D - 1⟩ := by
  have htw : (L ++ D).takeWhile isUpperChar = L := by
    rw [takeWhile_append_all isUpperChar L D hLu,
      takeWhile_nil_of_all_false isUpperChar D hDnu, List.append_nil]
  have hdw : (L ++ D).dropWhile isUpperChar = D := by
    rw [dropWhile_append_all isUpperChar L D hLu,
      dropWhile_self_of_all_false isUpperChar D hDnu]
  have hall : D.all isDigitChar = true := List.all_eq_true.mpr hDd
  rw [parseCellIdChars]
  simp only [htw, hdw, hall]
  rw [if_neg hLne, if_neg hDne, if_pos trivial, if_neg hval]

theorem cell_id_roundtrip (id : CellIdentifier) :
    parseCellIdentifier (cell_id_to_string id) = some id := by
  obtain ⟨col, row⟩ := id
  have h₂ : digitsVal (natToDigitsAux (row + 2) (row + 1)) = row + 1 := by
    rw [digitsVal, natToDigitsAux_foldl (row + 2) (row + 1) (by omega) 0]
    simp
  have h₁ : lettersVal (colNameAux (col + 1) col) = col + 1 := by
    rw [lettersVal, colNameAux_foldl (col + 1) col (by omega) 0]
    simp
  have hdata : (cell_id_to_string ⟨col, row⟩).data =
      colNameAux (col + 1) col ++ natToDigitsAux (row + 2) (row + 1) := rfl
  rw [parseCellIdentifier, hdata,
    parseCellIdChars_split _ _ (colNameAux_ne_nil _ _ (by omega))
      (natToDigitsAux_ne_nil _ _ (by omega)) (colNameAux_upper _ _ (by omega))
      (natToDigitsAux_not_upper _ _ (by omega)) (natToDigitsAux_digit _ _ (by omega))
      (by rw [h₂]; omega), h₁, h₂]
  simp

theorem is_same_row_names (id₁ id₂ : CellIdentifier) :
    is_same_row (cell_id_to_string id₁) (cell_id_to_string id₂) = (id₁.row == id₂.row) := by
  simp only [is_same_row, cell_id_roundtrip]

theorem is_same_col_names (id₁ id₂ : CellIdentifier) :
    is_same_col (cell_id_to_string id₁) (cell_id_to_string id₂) = (id₁.col == id₂.col) := by
  simp only [is_same_col, cell_id_roundtrip]

theorem rangeIncl_self (a : Nat) : rangeIncl a a = [a] := by
  rw [rangeIncl]
  have h : a + 1 - a = 1 := by omega
  rw [h, List.range'_one]

theorem rangeIncl_cons (a b : Nat) (h : a ≤ b) : rangeIncl a b = a :: rangeIncl (a + 1) b := by
  rw [rangeIncl, rangeIncl]
  have h₁ : b + 1 - a = (b - a) + 1 := by omega
  have h₂ : b + 1 - (a + 1) = b - a := by omega
  rw [h₁, h₂, List.range'_succ]

theorem rangeIncl_ne_nil (a b : Nat) (h : a ≤ b) : rangeIncl a b ≠ [] := by
  rw [rangeIncl_cons a b h]
  simp

theorem rangeIncl_head? (a b : Nat) (h : a ≤ b) : (rangeIncl a b).head? = some a := by
  rw [rangeIncl_cons a b h]
  rfl

theorem range'_getLast?_succ : ∀ (n s : Nat), (List.range' s (n + 1)).getLast? = some (s + n) := by
  intro n
  induction n with
  | zero =>
    intro s
    rw [List.range'_one]
    rfl
  | succ n ih =>
    intro s
    rw [List.range'_succ, List.range'_succ, List.getLast?_cons_cons, ← List.range'_succ,
      ih (s + 1)]
    congr 1
    omega

theorem rangeIncl_getLast? (a b : Nat) (h : a ≤ b) : (rangeIncl a b).getLast? = some b := by
  rw [rangeIncl]
  have h₁ : b + 1 - a = (b - a) + 1 := by omega
  rw [h₁, range'_getLast?_succ]
  congr 1
  omega

theorem flatten_map_singleton {α β : Type} (f : α → β) : ∀ (l : List α),
    (l.map (fun x => [f x])).flatten = l.map f := by
  intro l
  induction l with
  | nil => rfl
  | cons a t ih => simp [ih]

theorem flatten_map_getLast? {α : Type} (f : Nat → List α) (hne : ∀ x, f x ≠ []) :
    ∀ (cs : List Nat) (c : Nat), cs.getLast? = some c →
      ((cs.map f).flatten).getLast? = (f c).getLast? := by
  intro cs
  induction cs with
  | nil =>
    intro c h
    simp at h
  | cons a t ih =>
    intro c h
    cases t with
    | nil =>
      have hac : a = c := by simpa using h
      subst hac
      simp
    | cons b t₂ =>
      rw [List.getLast?_cons_cons] at h
      have hne₂ : ((b :: t₂).map f).flatten ≠ [] := by
        rw [List.map_cons, List.flatten_cons]
        intro hcontra
        exact hne b (List.append_eq_nil.mp hcontra).1
      rw [List.map_cons, List.flatten_cons, List.getLast?_append_of_ne_nil _ hne₂]
      exact ih c h

theorem rangeList_same_row (s e : CellIdentifier) (h : s.row = e.row) :
    rangeList s e = (rangeIncl s.col e.col).map (fun c => cell_id_to_string ⟨c, s.row⟩) := by
  rw [rangeList, ← h, rangeIncl_self]
  simp only [List.map_cons, List.map_nil]
  exact flatten_map_singleton _ _

theorem rangeList_same_col (s e : CellIdentifier) (h : s.col = e.col) :
    rangeList s e = (rangeIncl s.row e.row).map (fun r => cell_id_to_string ⟨s.col, r⟩) := by
  rw [rangeList, ← h, rangeIncl_self]
  simp

theorem rangeList_head? (s e : CellIdentifier) (hc : s.col ≤ e.col) (hr : s.row ≤ e.row) :
    (rangeList s e).head? = some (cell_id_to_string ⟨s.col, s.row⟩) := by
  rw [rangeList, rangeIncl_cons s.col e.col hc]
  simp only [rangeIncl_cons s.row e.row hr, List.map_cons, List.flatten_cons,
    List.cons_append]
  rfl

theorem rangeList_getLast? (s e : CellIdentifier) (hc : s.col ≤ e.col) (hr : s.row ≤ e.row) :
    (rangeList s e).getLast? = some (cell_id_to_string ⟨e.col, e.row⟩) := by
  rw [rangeList]
  have hinner : ∀ col, ((rangeIncl s.row e.row).map
      (fun row => cell_id_to_string ⟨col, row⟩)) ≠ [] := by
    intro col hcontra
    exact rangeIncl_ne_nil s.row e.row hr (List.map_eq_nil_iff.mp hcontra)
  rw [flatten_map_getLast? _ hinner (rangeIncl s.col e.col) e.col
    (rangeIncl_getLast? s.col e.col hc)]
  rw [List.getLast?_map, rangeIncl_getLast? s.row e.row hr]
  rfl

/-- C7 (amended): for a range token whose endpoints are well-formed cell
identifiers in canonical order (start.col ≤ end.col and start.row ≤ end.row)
and which is not shadowed by a stored cell of the same name: if the endpoints
share a row or share a column the resolver produces the one-dimensional
inclusive sequence of current values (missing cells contributing "no
value"), the start = end case resolving as a single-element sequence and
never as a matrix; otherwise it produces the row-major two-dimensional grid
of values over the inclusive rectangle.  On endpoints out of canonical order
the code panics instead of producing the claimed sequence (see the
counterexample and C10). -/
theorem C7_range_resolution :
    ∀ (cells : CellGrid) (var : String) (a b : List Char) (sId eId : CellIdentifier),
      mapGet cells var = Option.none →
      splitUnderscore var.data = [a, b] →
      parseCellIdChars a = some sId →
      parseCellIdChars b = some eId →
      sId.col ≤ eId.col → sId.row ≤ eId.row →
      ((sId.row = eId.row ∨ sId.col = eId.col →
        resolve_variable var cells =
          .ok (some (CellArgument.Vector
            ((spec_range_sequence sId eId).map (valueAt cells))))) ∧
       (sId.row ≠ eId.row → sId.col ≠ eId.col →
        resolve_variable var cells =
          .ok (some (CellArgument.Matrix
            ((spec_range_grid sId eId).map (fun r => r.map (valueAt cells)))))) ∧
       (sId = eId →
        resolve_variable var cells =
          .ok (some (CellArgument.Vector [valueAt cells (cell_id_to_string sId)])))) := by
  intro cells var a b sId eId hnone hsplit hpa hpb hcol hrow
  have hpr : parse_range var = some (rangeList sId eId) := by
    simp only [parse_range, hsplit, hpa, hpb]
  have hvec : sId.row = eId.row ∨ sId.col = eId.col →
      resolve_variable var cells =
        .ok (some (CellArgument.Vector
          ((spec_range_sequence sId eId).map (valueAt cells)))) := by
    intro hsame
    by_cases hr : sId.row = eId.row
    · have hlist := rangeList_same_row sId eId hr
      have hhead : (rangeList sId eId).head? =
          some (cell_id_to_string ⟨sId.col, sId.row⟩) := by
        rw [hlist, List.head?_map, rangeIncl_head? sId.col eId.col hcol]
        rfl
      have hlast : (rangeList sId eId).getLast? =
          some (cell_id_to_string ⟨eId.col, sId.row⟩) := by
        rw [hlist, List.getLast?_map, rangeIncl_getLast? sId.col eId.col hcol]
        rfl
      have hsr : is_same_row (cell_id_to_string ⟨sId.col, sId.row⟩)
          (cell_id_to_string ⟨eId.col, sId.row⟩) = true := by
        rw [is_same_row_names]
        simp
      simp only [resolve_variable, hnone, hpr, hhead, hlast, hsr, Bool.true_or, if_true]
      rw [spec_range_sequence, if_pos hr, hlist]
    · rcases hsame with hr₂ | hc
      · exact absurd hr₂ hr
      have hlist := rangeList_same_col sId eId hc
      have hhead : (rangeList sId eId).head? =
          some (cell_id_to_string ⟨sId.col, sId.row⟩) := by
        rw [hlist, List.head?_map, rangeIncl_head? sId.row eId.row hrow]
        rfl
      have hlast : (rangeList sId eId).getLast? =
          some (cell_id_to_string ⟨sId.col, eId.row⟩) := by
        rw [hlist, List.getLast?_map, rangeIncl_getLast? sId.row eId.row hrow]
        rfl
      have hsr : is_same_row (cell_id_to_string ⟨sId.col, sId.row⟩)
          (cell_id_to_string ⟨sId.col, eId.row⟩) = false := by
        rw [is_same_row_names]
        simp [hr]
      have hsc : is_same_col (cell_id_to_string ⟨sId.col, sId.row⟩)
          (cell_id_to_string ⟨sId.col, eId.row⟩) = true := by
        rw [is_same_col_names]
        simp
      simp only [resolve_variable, hnone, hpr, hhead, hlast, hsr, hsc, Bool.false_or,
        if_true]
      rw [spec_range_sequence, if_neg hr, hlist]
  refine ⟨hvec, ?_, ?_⟩
  · intro hrne hcne
    have hhead := rangeList_head? sId eId hcol hrow
    have hlast := rangeList_getLast? sId eId hcol hrow
    have hsr : is_same_row (cell_id_to_string ⟨sId.col, sId.row⟩)
        (cell_id_to_string ⟨eId.col, eId.row⟩) = false := by
      rw [is_same_row_names]
      simp [hrne]
    have hsc : is_same_col (cell_id_to_string ⟨sId.col, sId.row⟩)
        (cell_id_to_string ⟨eId.col, eId.row⟩) = false := by
      rw [is_same_col_names]
      simp [hcne]
    have hbm : build_matrix (rangeList sId eId) cells =
        .ok ((rangeIncl sId.row eId.row).map (fun row =>
          (rangeIncl sId.col eId.col).map (fun col =>
            valueAt cells (cell_id_to_string ⟨col, row⟩)))) := by
      simp only [build_matrix, hhead, hlast, Option.some_bind, cell_id_roundtrip]
    simp only [resolve_variable, hnone, hpr, hhead, hlast, hsr, hsc, Bool.or_self,
      Bool.false_eq_true, if_false, hbm]
    rw [spec_range_grid]
    simp [List.map_map, Function.comp]
  · intro hse
    subst hse
    have h := hvec (Or.inl rfl)
    rw [h, spec_range_sequence, if_pos rfl, rangeIncl_self]
    simp

/-- Counterexample for C7 as stated: the range token "B1_A1" has well-formed
endpoint identifiers sharing a row, so the claim promises a one-dimensional
sequence covering B1 to A1 inclusive; the code instead expands the reversed
range to an empty vector and panics indexing it. -/
theorem C7_counterexample :
    resolve_variable "B1_A1" [] = .error "panic: index out of bounds on empty range" ∧
    is_same_row "B1" "A1" = true :=
  ⟨rfl, rfl⟩

/-- Witness for C7 at concrete inputs: the same-column token A1_A3 resolves
to a three-element sequence, the genuine rectangle A1_B2 resolves to a
row-major 2x2 grid of current values, and the degenerate token A1_A1
resolves to a single-element sequence, not a matrix. -/
theorem C7_witness :
    resolve_variable "A1_A3" [] =
      .ok (some (CellArgument.Vector [CellValue.None, CellValue.None, CellValue.None])) ∧
    resolve_variable "A1_B2" [("A1", ⟨CellValue.Int 3, some "3"⟩)] =
      .ok (some (CellArgument.Matrix
        [[CellValue.Int 3, CellValue.None], [CellValue.None, CellValue.None]])) ∧
    resolve_variable "A1_A1" [] = .ok (some (CellArgument.Vector [CellValue.None])) := by
  refine ⟨?_, ?_, ?_⟩
  · exact (C7_range_resolution [] "A1_A3" ['A', '1'] ['A', '3'] ⟨0, 0⟩ ⟨0, 2⟩
      rfl rfl rfl rfl (by decide) (by decide)).1 (Or.inr rfl)
  · exact (C7_range_resolution [("A1", ⟨CellValue.Int 3, some "3"⟩)] "A1_B2"
      ['A', '1'] ['B', '2'] ⟨0, 0⟩ ⟨1, 1⟩ rfl rfl rfl rfl (by decide) (by decide)).2.1
      (by decide) (by decide)
  · exact (C7_range_resolution [] "A1_A1" ['A', '1'] ['A', '1'] ⟨0, 0⟩ ⟨0, 0⟩
      rfl rfl rfl rfl (by decide) (by decide)).2.2 rfl
